import Mathlib

/-!
Verification of the cryptoGo repository's specification against its source.

The repository is a Next.js frontend plus a FastAPI backend for an AI-driven
crypto trading demo.  The frontend TypeScript sources (Zustand stores, API
clients, React components) and the SQL schemas are present and are embedded
here directly.  The backend Python endpoint bodies are not part of the
available sources; where a claim depends on them, the corresponding
definition is modelled from the specification text and is marked as such in
its doc comment.
-/

namespace CryptoGo

/-! ## Market data model (frontend/src/types/market.ts)

`KlineData` and `TickerData` mirror the TypeScript interfaces.  Numeric
fields are embedded as rationals; nullable fields become `Option`. -/

structure KlineData where
  timestamp : Int
  openPrice : Rat  -- field `open` in the source; renamed because `open` is a Lean keyword
  high : Rat
  low : Rat
  close : Rat
  volume : Rat
  deriving Repr, DecidableEq

structure TickerData where
  symbol : String
  last : Rat
  bid : Option Rat
  ask : Option Rat
  high : Option Rat
  low : Option Rat
  volume : Option Rat
  change : Option Rat
  percentage : Option Rat
  timestamp : Int
  deriving Repr, DecidableEq

/-! ## Market store (store/marketStore.ts)

The Zustand store state and its actions.  A `set` call with a partial
object merges into the state, so each action is a record update that
touches exactly the fields named in the source. -/

structure MarketState where
  currentSymbol : String
  currentInterval : String
  klineData : List KlineData
  tickerData : Option TickerData
  previousPrice : Option Rat
  deriving Repr, DecidableEq

/-- Condition `lastIndex >= 0 && newData[lastIndex].timestamp === data.timestamp`
from `appendKlineData` in the market store. -/
def lastTimestampMatches (kl : List KlineData) (d : KlineData) : Bool :=
  match kl.getLast? with
  | some lastK => lastK.timestamp == d.timestamp
  | none => false

/-- Core list transformation of `appendKlineData`: if the incoming kline has
the same timestamp as the stored last one, the last element is replaced;
otherwise the kline is pushed and, when the list exceeds 1000 elements, the
oldest element is shifted off. -/
def appendKlineList (kl : List KlineData) (d : KlineData) : List KlineData :=
  if lastTimestampMatches kl d then
    kl.dropLast ++ [d]
  else
    let nd := kl ++ [d]
    if nd.length > 1000 then nd.tail else nd

/-- Action `appendKlineData` of the market store: only the `klineData`
field of the state is replaced. -/
def appendKlineData (s : MarketState) (d : KlineData) : MarketState :=
  { s with klineData := appendKlineList s.klineData d }

/-- Action `setTickerData` of the market store:
`set((state) => ({ tickerData: data, previousPrice: state.tickerData?.last || null }))`.
JavaScript `||` treats the number `0` as falsy, so a previous last price of
`0` yields `null`. -/
def setTickerData (s : MarketState) (d : TickerData) : MarketState :=
  { s with
    tickerData := some d
    previousPrice :=
      match s.tickerData with
      | some t => if t.last = 0 then none else some t.last
      | none => none }

/-! ## ChatPanel expanded-ids set (components/ChatPanel.tsx)

`expandedIds` is a JavaScript `Set<number>`; `toggleExpand` copies it and
deletes the id when present, inserts it otherwise. -/

/-- Function `toggleExpand` of `ChatPanel`. -/
def toggleExpand (expandedIds : Finset ℕ) (id : ℕ) : Finset ℕ :=
  if id ∈ expandedIds then expandedIds.erase id else insert id expandedIds

/-! ## Trading session status

The status enum appears both in the frontend type
(`status: 'running' | 'completed' | 'stopped' | 'crashed'` in
store/sessionStore.ts) and in the SQL CHECK constraint of
`trading_sessions` in backend/schema.sqlite.sql. -/

inductive SessionStatus where
  | running
  | stopped
  | crashed
  | completed
  deriving Repr, DecidableEq

/-- String stored in the `status` column for each enum value. -/
def SessionStatus.str : SessionStatus → String
  | .running => "running"
  | .stopped => "stopped"
  | .crashed => "crashed"
  | .completed => "completed"

/-- Allowed values of the CHECK constraint
`CHECK (status IN ('running', 'stopped', 'crashed', 'completed'))`
on `trading_sessions.status` in backend/schema.sqlite.sql. -/
def sessionStatusCheck : List String :=
  ["running", "stopped", "crashed", "completed"]

/-- Terminal statuses per the spec: a session is terminal once its status is
in `{stopped, crashed, completed}`. -/
def SessionStatus.isTerminal : SessionStatus → Bool
  | .running => false
  | _ => true

/-! ## Session rows and lifecycle operations

Modelled from the spec: the backend session endpoints
(`/api/v1/session/start`, `/api/v1/session/end`) and the background
decision loop live in the FastAPI backend, whose Python sources are not
part of the available files; only their schema, clients and documentation
are.  The row fields follow the `trading_sessions` columns of
backend/schema.sqlite.sql, and the operations follow the spec's words:
a session row is created on session start with status `running`
(column default `'running'`); it is mutated by the decision loop
(pnl/decision-count/last-error updates) and by explicit end-session calls,
which set the requested terminal status; it is terminal once its status is
in `{stopped, crashed, completed}`. -/

structure SessionRow where
  id : Nat
  sessionName : Option String
  status : SessionStatus
  initialCapital : Option Rat
  totalPnl : Option Rat
  decisionCount : Nat
  lastError : Option String
  endedAt : Option Nat
  notes : Option String
  deriving Repr, DecidableEq

/-- Operations that mutate an existing session row, per the spec:
"mutated by the decision loop and by explicit end-session calls". -/
inductive SessionOp where
  | loopTick (pnl : Option Rat) (err : Option String)
  | endSession (req : SessionStatus) (notes : Option String) (time : Nat)
  deriving Repr, DecidableEq

/-- Modelled from the spec: one mutation step on a session row.  A decision
loop tick updates the aggregate pnl, the decision counter and the last
error but never the status; an end-session call sets the requested
terminal status (together with `ended_at` and the notes) and applies only
to a still-running session, so re-ending an ended session changes
nothing. -/
def applySessionOp (s : SessionRow) : SessionOp → SessionRow
  | .loopTick pnl err =>
      { s with totalPnl := pnl, decisionCount := s.decisionCount + 1, lastError := err }
  | .endSession req ns t =>
      if s.status = .running ∧ req.isTerminal then
        { s with status := req, endedAt := some t, notes := ns }
      else
        s

/-- Folding a list of lifecycle operations over a session row. -/
def applySessionOps (s : SessionRow) (ops : List SessionOp) : SessionRow :=
  ops.foldl applySessionOp s

/-- Modelled from the spec: the row created by a successful
`/api/v1/session/start` call.  The status column takes its schema default
`'running'`. -/
def newSessionRow (id : Nat) (name : Option String) (cap : Option Rat) : SessionRow :=
  { id := id
    sessionName := name
    status := .running
    initialCapital := cap
    totalPnl := none
    decisionCount := 0
    lastError := none
    endedAt := none
    notes := none }

/-- Modelled from the spec: a successful start-session call appends exactly
one new row to the `trading_sessions` table. -/
def startSession (db : List SessionRow) (id : Nat) (name : Option String)
    (cap : Option Rat) : List SessionRow :=
  db ++ [newSessionRow id name cap]

/-- Modelled from the spec: the end-session operation updates the row with
the given session id, leaving all other rows untouched. -/
def endSessionDb (db : List SessionRow) (sid : Nat) (req : SessionStatus)
    (ns : Option String) (t : Nat) : List SessionRow :=
  db.map fun r => if r.id = sid then applySessionOp r (.endSession req ns t) else r

/-! ## Background decision loop registry

Modelled from the spec: the per-session background decision loop is run by
the FastAPI backend ("a single background timer per session, polling at a
fixed interval"; "the decision loop does not double-start for the same
session id").  The backend Python sources are not among the available
files, so the loop manager is modelled as a registry of session ids whose
loop is currently running: a start request for an already-registered id is
a no-op, a stop request removes the id.  The frontend counterpart
(AgentMonitor's polling effect) likewise keeps one `setInterval` timer,
clearing it in the effect cleanup. -/

def startLoop (reg : List Nat) (sid : Nat) : List Nat :=
  if sid ∈ reg then reg else sid :: reg

/-- Modelled from the spec: stopping the decision loop removes the session
id from the registry. -/
def stopLoop (reg : List Nat) (sid : Nat) : List Nat :=
  reg.erase sid

/-- Start/stop requests issued against the background loop manager. -/
inductive AgentOp where
  | start (sid : Nat)
  | stop (sid : Nat)
  deriving Repr, DecidableEq

/-- Folding a list of start/stop requests over the registry. -/
def applyAgentOps (reg : List Nat) (ops : List AgentOp) : List Nat :=
  ops.foldl (fun r op => match op with
    | .start sid => startLoop r sid
    | .stop sid => stopLoop r sid) reg

/-! ## Error surfacing (lib/api.ts response interceptor)

The axios response interceptor rewrites `error.message` before the store
catches the error:
if `error.response?.data?.detail` is truthy it becomes the message, else a
truthy `error.response?.data?.message`, else a truthy original
`error.message`, else the generic fallback string.  JavaScript truthiness
makes the empty string fall through each branch. -/

/-- JavaScript truthiness on an optional string: an absent or empty string
is falsy. -/
def jsTruthy (s : Option String) : Option String :=
  match s with
  | some v => if v = "" then none else some v
  | none => none

/-- Fallback string `'网络请求失败'` of the interceptor. -/
def genericNetworkError : String := "网络请求失败"

/-- Message produced by the response interceptor in lib/api.ts given the
response body's `detail` and `message` fields and the transport error's
original `message`. -/
def extractErrorMessage (detail message origMsg : Option String) : String :=
  match jsTruthy detail with
  | some d => d
  | none =>
    match jsTruthy message with
    | some m => m
    | none =>
      match jsTruthy origMsg with
      | some m => m
      | none => genericNetworkError

/-- UI-facing part of the session store state (store/sessionStore.ts). -/
structure SessionUiState where
  activeSessionId : Option Nat
  isLoading : Bool
  error : Option String
  deriving Repr, DecidableEq

/-- Catch branch of every session store action: the store records the
caught error's message and clears the loading flag. -/
def sessionFailure (s : SessionUiState) (msg : String) : SessionUiState :=
  { s with error := some msg, isLoading := false }

/-- Error banner of the trading page (`{sessionError && (... {sessionError} ...)}`):
the stored error string is rendered verbatim, and only when truthy. -/
def displayedSessionError (s : SessionUiState) : Option String :=
  jsTruthy s.error

/-- An HTTP error response as seen by the client: a status code and the
`detail` field of its JSON body. -/
structure HttpErrorResponse where
  status : Nat
  detail : String
  deriving Repr, DecidableEq

/-- Predicate for 2xx status codes. -/
def is2xx (status : Nat) : Bool :=
  200 ≤ status ∧ status < 300

/-- Modelled from the spec: the FastAPI layer catches errors at the HTTP
boundary and surfaces them as a JSON body `{detail: string}` with a
non-2xx status (FastAPI's `HTTPException` shape).  The backend Python
sources are not among the available files. -/
def surfaceError (status : Nat) (msg : String) : HttpErrorResponse :=
  { status := max status 400, detail := msg }

/-! ## REST routes invoked by the frontend clients

Route strings collected from frontend/src/lib/api.ts (marketApi, agentApi,
sessionApi, accountApi, configApi across its revisions),
frontend/src/constants/apiRoutes.ts, and the session store's fetch
calls. -/

/-- Sections of the claim's route grammar `/api/v1/{market,session,agent,account,config}`. -/
def apiSections : List String :=
  ["market", "session", "agent", "account", "config"]

/-- All REST paths the frontend client code requests, for a given session
id appearing in the parameterised templates. -/
def invokedRoutes (sid : Nat) : List String :=
  [ "/api/v1/market/klines"
  , "/api/v1/market/ticker"
  , "/api/v1/market/symbols"
  , "/api/v1/market/funding-rate"
  , "/api/v1/market/open-interest"
  , "/api/v1/market/indicators"
  , "/api/v1/agent/sessions/" ++ toString sid ++ "/run-once"
  , "/api/v1/agent/sessions/" ++ toString sid ++ "/start-background"
  , "/api/v1/agent/sessions/" ++ toString sid ++ "/stop-background"
  , "/api/v1/agent/sessions/" ++ toString sid ++ "/background-status"
  , "/api/v1/agent/background-agents/list"
  , "/api/v1/agent/test"
  , "/api/v1/session/" ++ toString sid
  , "/api/v1/session/active"
  , "/api/v1/session/list"
  , "/api/v1/session/start"
  , "/api/v1/session/end"
  , "/api/v1/session/" ++ toString sid ++ "/ai-decisions"
  , "/api/v1/session/" ++ toString sid ++ "/asset-timeline"
  , "/api/v1/account/summary"
  , "/api/v1/config/trading-pairs"
  ]

/-- A route lies under `/api/v1/<sect>/...` for one of the five sections. -/
def underApiV1 (r : String) : Prop :=
  ∃ sect rest, sect ∈ apiSections ∧ r = "/api/v1/" ++ sect ++ ("/" ++ rest)

/-- Top-level fields of the successful response body of
`marketApi.getTicker`, per the declared return type `TickerData`
(types/market.ts) and its direct consumers (`ticker.last` on the trading
page). -/
def tickerRespFields : List String :=
  ["symbol", "last", "bid", "ask", "high", "low", "volume", "change",
   "percentage", "timestamp"]

/-- Top-level fields of the successful response body of
`marketApi.getKlines`, per the declared return type `KlineResponse`. -/
def klineRespFields : List String :=
  ["symbol", "interval", "data", "count"]

/-- Top-level fields of the successful response body of
`configApi.getTradingPairs`, per its declared return type
`{success: boolean; data: Array<...>}`. -/
def configTradingPairsRespFields : List String :=
  ["success", "data"]

/-- Top-level fields of the successful response body of
`sessionApi.getAIDecisions`, per its consumer `ChatPanel.fetchDecisions`
(`response.success`, `response.data`). -/
def aiDecisionsRespFields : List String :=
  ["success", "data"]

/-! ## Trade rows (backend/schema.sqlite.sql, table `trades`)

Each nullable column is an `Option`; `tradeRowSatisfiesSchema` is the
conjunction of the table's NOT NULL and CHECK constraints. -/

structure TradeRow where
  sessionId : Option Nat
  symbol : Option String
  side : Option String
  orderType : Option String
  quantity : Option Rat
  entryPrice : Option Rat
  exitPrice : Option Rat
  price : Option Rat
  totalValue : Option Rat
  pnl : Option Rat
  deriving Repr, DecidableEq

/-- Allowed values of `CHECK (side IN ('long', 'short'))`. -/
def tradeSideCheck : List String := ["long", "short"]

/-- Allowed values of `CHECK (order_type IN ('market', 'limit', 'stop', 'stop_limit'))`. -/
def orderTypeCheck : List String := ["market", "limit", "stop", "stop_limit"]

/-- NOT NULL and CHECK constraints of the `trades` table: `symbol`, `side`,
`quantity`, `entry_price`, `price`, `total_value` and `pnl` are NOT NULL;
`side` and a present `order_type` must take one of their CHECK values. -/
def tradeRowSatisfiesSchema (t : TradeRow) : Bool :=
  t.symbol.isSome && t.quantity.isSome && t.entryPrice.isSome &&
  t.price.isSome && t.totalValue.isSome && t.pnl.isSome &&
  (match t.side with
   | some s => tradeSideCheck.contains s
   | none => false) &&
  (match t.orderType with
   | some o => orderTypeCheck.contains o
   | none => true)

/-- Side of a position, as used when a trade row is written. -/
inductive TradeSide where
  | long
  | short
  deriving Repr, DecidableEq

/-- Column string for a position side. -/
def TradeSide.str : TradeSide → String
  | .long => "long"
  | .short => "short"

/-- Modelled from the spec: a trade row is created only at position close
("Created only at position close (per repo's own schema evolution
notes)"; schema comment "只在平仓时创建记录"), recording the completed
cycle of a position together with its realised pnl.  The backend writer is
not among the available files. -/
def createTradeAtClose (sid : Nat) (symbol : String) (side : TradeSide)
    (qty entry exit fees : Rat) : TradeRow :=
  { sessionId := some sid
    symbol := some symbol
    side := some side.str
    orderType := some "market"
    quantity := some qty
    entryPrice := some entry
    exitPrice := some exit
    price := some entry
    totalValue := some (qty * entry)
    pnl := some ((match side with
                  | .long => (exit - entry) * qty
                  | .short => (entry - exit) * qty) - fees) }

/-! ## Sample values used by the witness theorems -/

/-- Sample kline with timestamp 100. -/
def sampleKline : KlineData :=
  { timestamp := 100, openPrice := 1, high := 2, low := 1, close := 2, volume := 3 }

/-- Sample kline with timestamp 200. -/
def sampleKline2 : KlineData :=
  { timestamp := 200, openPrice := 2, high := 3, low := 2, close := 3, volume := 4 }

/-- Sample market-store state holding one kline and one ticker. -/
def sampleMarketState : MarketState :=
  { currentSymbol := "BTC/USDT"
    currentInterval := "1h"
    klineData := [sampleKline]
    tickerData := none
    previousPrice := none }

/-! ## Theorems -/

/-- Helper: the tail of a nonempty list with one element appended. -/
theorem tail_append_singleton {α : Type} (l : List α) (a : α) (h : l ≠ []) :
    (l ++ [a]).tail = l.tail ++ [a] := by
  cases l with
  | nil => exact absurd rfl h
  | cons x xs => rfl

/-- Claim C8: for every market-store state holding at most 1000 klines,
`appendKlineData` keeps at most 1000 klines; when the incoming kline's
timestamp equals the last stored kline's timestamp it replaces that last
element without changing the length; otherwise it appends the kline,
first dropping the oldest element when the list already holds 1000. -/
theorem appendKlineData_spec (s : MarketState) (d : KlineData)
    (hlen : s.klineData.length ≤ 1000) :
    (appendKlineData s d).klineData.length ≤ 1000 ∧
    (∀ lk, s.klineData.getLast? = some lk → lk.timestamp = d.timestamp →
      (appendKlineData s d).klineData = s.klineData.dropLast ++ [d] ∧
      (appendKlineData s d).klineData.length = s.klineData.length) ∧
    (lastTimestampMatches s.klineData d = false →
      (s.klineData.length < 1000 →
        (appendKlineData s d).klineData = s.klineData ++ [d]) ∧
      (s.klineData.length = 1000 →
        (appendKlineData s d).klineData = s.klineData.tail ++ [d])) := by
  classical
  set kl := s.klineData with hkl
  have hmain : (appendKlineData s d).klineData = appendKlineList kl d := rfl
  by_cases hmatch : lastTimestampMatches kl d = true
  · -- the incoming kline replaces the stored last one
    have hne : kl ≠ [] := by
      intro h0
      rw [h0] at hmatch
      simp [lastTimestampMatches] at hmatch
    have happ : appendKlineList kl d = kl.dropLast ++ [d] := by
      unfold appendKlineList
      rw [if_pos hmatch]
    have hlen' : (kl.dropLast ++ [d]).length = kl.length := by
      have hpos : 0 < kl.length := List.length_pos.mpr hne
      simp [List.length_append, List.length_dropLast]
      omega
    refine ⟨?_, ?_, ?_⟩
    · rw [hmain, happ, hlen']; exact hlen
    · intro lk _ _
      exact ⟨by rw [hmain, happ], by rw [hmain, happ, hlen']⟩
    · intro hfalse
      rw [hmatch] at hfalse
      exact absurd hfalse (by simp)
  · -- the incoming kline is appended
    have hmatch' : lastTimestampMatches kl d = false := by
      simpa using hmatch
    have happ : appendKlineList kl d =
        if (kl ++ [d]).length > 1000 then (kl ++ [d]).tail else kl ++ [d] := by
      unfold appendKlineList
      rw [if_neg (by simp [hmatch'])]
    refine ⟨?_, ?_, ?_⟩
    · rw [hmain, happ]
      by_cases hgt : (kl ++ [d]).length > 1000
      · rw [if_pos hgt]
        simp [List.length_append] at hgt ⊢
        omega
      · rw [if_neg hgt]
        simp [List.length_append] at hgt ⊢
        omega
    · intro lk hlast hts
      exfalso
      have : lastTimestampMatches kl d = true := by
        unfold lastTimestampMatches
        rw [hlast]
        simp [hts]
      rw [this] at hmatch'
      exact absurd hmatch' (by simp)
    · intro _
      constructor
      · intro hlt
        rw [hmain, happ, if_neg (by simp [List.length_append]; omega)]
      · intro heq
        have hne : kl ≠ [] := by
          intro h0
          rw [h0] at heq
          simp at heq
        rw [hmain, happ, if_pos (by simp [List.length_append]; omega)]
        exact tail_append_singleton kl d hne

/-- Witness for claim C8: appending a fresh-timestamp kline to the sample
one-element store yields the two-element list. -/
theorem appendKlineData_spec_witness :
    (appendKlineData sampleMarketState sampleKline2).klineData =
      [sampleKline, sampleKline2] :=
  ((appendKlineData_spec sampleMarketState sampleKline2 (by decide)).2.2
      (by decide)).1 (by decide)

/-- Claim C9: `setTickerData t` stores `t` as the ticker, records the
previously stored ticker's last price as `previousPrice` (none when no
previous ticker exists, and none when its last price is 0 because
JavaScript `||` treats 0 as falsy), and leaves the current symbol, the
current interval and the kline list unchanged. -/
theorem setTickerData_spec (s : MarketState) (d : TickerData) :
    (setTickerData s d).tickerData = some d ∧
    (s.tickerData = none → (setTickerData s d).previousPrice = none) ∧
    (∀ t, s.tickerData = some t →
      (t.last = 0 → (setTickerData s d).previousPrice = none) ∧
      (t.last ≠ 0 → (setTickerData s d).previousPrice = some t.last)) ∧
    (setTickerData s d).currentSymbol = s.currentSymbol ∧
    (setTickerData s d).currentInterval = s.currentInterval ∧
    (setTickerData s d).klineData = s.klineData := by
  refine ⟨rfl, ?_, ?_, rfl, rfl, rfl⟩
  · intro hnone
    simp [setTickerData, hnone]
  · intro t ht
    constructor
    · intro h0
      simp [setTickerData, ht, h0]
    · intro h0
      simp [setTickerData, ht, h0]

/-- Sample ticker with last price 5. -/
def sampleTicker : TickerData :=
  { symbol := "BTC/USDT", last := 5, bid := none, ask := none, high := none,
    low := none, volume := none, change := none, percentage := none,
    timestamp := 100 }

/-- Witness for claim C9: setting a ticker on the sample state (which holds
no previous ticker) stores it and leaves `previousPrice` empty. -/
theorem setTickerData_spec_witness :
    (setTickerData sampleMarketState sampleTicker).tickerData = some sampleTicker ∧
    (setTickerData sampleMarketState sampleTicker).previousPrice = none ∧
    (setTickerData sampleMarketState sampleTicker).klineData = [sampleKline] :=
  ⟨(setTickerData_spec sampleMarketState sampleTicker).1,
   (setTickerData_spec sampleMarketState sampleTicker).2.1 rfl,
   (setTickerData_spec sampleMarketState sampleTicker).2.2.2.2.2⟩

/-- Claim C10: `toggleExpand` flips exactly the given id's membership in
the expanded-ids set, leaves every other id's membership unchanged, and
applying it twice with the same id restores the original set. -/
theorem toggleExpand_spec (s : Finset ℕ) (i : ℕ) :
    (i ∈ toggleExpand s i ↔ i ∉ s) ∧
    (∀ j, j ≠ i → (j ∈ toggleExpand s i ↔ j ∈ s)) ∧
    toggleExpand (toggleExpand s i) i = s := by
  classical
  by_cases hi : i ∈ s
  · refine ⟨?_, ?_, ?_⟩
    · simp [toggleExpand, hi]
    · intro j hj
      simp [toggleExpand, hi, Finset.mem_erase, hj]
    · have h1 : toggleExpand s i = s.erase i := by simp [toggleExpand, hi]
      have h2 : i ∉ s.erase i := Finset.not_mem_erase i s
      rw [h1, toggleExpand, if_neg h2]
      exact Finset.insert_erase hi
  · refine ⟨?_, ?_, ?_⟩
    · simp [toggleExpand, hi]
    · intro j hj
      simp [toggleExpand, hi, Finset.mem_insert, hj]
    · have h1 : toggleExpand s i = insert i s := by simp [toggleExpand, hi]
      have h2 : i ∈ insert i s := Finset.mem_insert_self i s
      rw [h1, toggleExpand, if_pos h2]
      exact Finset.erase_insert hi

/-- Witness for claim C10: toggling id 2 on the set `{1, 2}` removes it,
membership of 1 is unchanged, and toggling twice restores `{1, 2}`. -/
theorem toggleExpand_spec_witness :
    (2 ∈ toggleExpand {1, 2} 2 ↔ (2 : ℕ) ∉ ({1, 2} : Finset ℕ)) ∧
    ((1 : ℕ) ∈ toggleExpand {1, 2} 2 ↔ (1 : ℕ) ∈ ({1, 2} : Finset ℕ)) ∧
    toggleExpand (toggleExpand {1, 2} 2) 2 = ({1, 2} : Finset ℕ) :=
  ⟨(toggleExpand_spec {1, 2} 2).1,
   (toggleExpand_spec {1, 2} 2).2.1 1 (by decide),
   (toggleExpand_spec {1, 2} 2).2.2⟩

/-- Helper: equation of `applySessionOp` on a loop tick. -/
theorem applySessionOp_loopTick (s : SessionRow) (pnl : Option Rat) (err : Option String) :
    applySessionOp s (.loopTick pnl err) =
      { s with totalPnl := pnl, decisionCount := s.decisionCount + 1, lastError := err } := rfl

/-- Helper: equation of `applySessionOp` on an end-session request. -/
theorem applySessionOp_endSession (s : SessionRow) (req : SessionStatus)
    (ns : Option String) (t : Nat) :
    applySessionOp s (.endSession req ns t) =
      if s.status = SessionStatus.running ∧ req.isTerminal = true then
        { s with status := req, endedAt := some t, notes := ns }
      else s := rfl

/-- Helper: every status value renders to a string allowed by the SQL
CHECK constraint. -/
theorem statusStr_mem_check (st : SessionStatus) : st.str ∈ sessionStatusCheck := by
  cases st <;> simp [SessionStatus.str, sessionStatusCheck]

/-- Helper: a lifecycle operation never changes the status of a session
whose status is terminal. -/
theorem applySessionOp_status_of_terminal (s : SessionRow) (op : SessionOp)
    (h : s.status.isTerminal = true) : (applySessionOp s op).status = s.status := by
  cases op with
  | loopTick pnl err => rfl
  | endSession req ns t =>
    rw [applySessionOp_endSession]
    have hne : ¬ s.status = SessionStatus.running := by
      intro hrun
      rw [hrun] at h
      simp [SessionStatus.isTerminal] at h
    rw [if_neg (by intro hc; exact hne hc.1)]

/-- Claim C1: every session row's status renders to one of the four
CHECK-allowed strings, and a session whose status is terminal (stopped,
crashed or completed) keeps that status under every sequence of lifecycle
operations; in particular it never returns to `running`. -/
theorem sessionStatus_terminal_spec (s : SessionRow) (ops : List SessionOp)
    (h : s.status.isTerminal = true) :
    (∀ r : SessionRow, r.status.str ∈ sessionStatusCheck) ∧
    (applySessionOps s ops).status = s.status ∧
    (applySessionOps s ops).status ≠ SessionStatus.running := by
  have hfix : (applySessionOps s ops).status = s.status := by
    induction ops generalizing s with
    | nil => rfl
    | cons op rest ih =>
      have hstep := applySessionOp_status_of_terminal s op h
      have hterm2 : (applySessionOp s op).status.isTerminal = true := by
        rw [hstep]; exact h
      calc (applySessionOps s (op :: rest)).status
          = (applySessionOps (applySessionOp s op) rest).status := rfl
        _ = (applySessionOp s op).status := ih _ hterm2
        _ = s.status := hstep
  refine ⟨fun r => statusStr_mem_check r.status, hfix, ?_⟩
  rw [hfix]
  intro hrun
  rw [hrun] at h
  simp [SessionStatus.isTerminal] at h

/-- Sample session row in a terminal state. -/
def sampleEndedRow : SessionRow :=
  { id := 1, sessionName := some "demo", status := .completed,
    initialCapital := some 10000, totalPnl := some 5, decisionCount := 3,
    lastError := none, endedAt := some 50, notes := none }

/-- Witness for claim C1: a completed sample session stays `completed`
under a loop tick followed by a re-end request. -/
theorem sessionStatus_terminal_spec_witness :
    (applySessionOps sampleEndedRow
      [SessionOp.loopTick (some 6) none,
       SessionOp.endSession .stopped none 60]).status = sampleEndedRow.status :=
  (sessionStatus_terminal_spec sampleEndedRow
    [SessionOp.loopTick (some 6) none,
     SessionOp.endSession .stopped none 60] (by decide)).2.1

/-- Claim C2: a successful start-session call creates exactly one new
session row — the table grows by one, the existing rows are untouched, the
new row is the appended last row — and that row's status is `running`. -/
theorem startSession_spec (db : List SessionRow) (id : Nat) (name : Option String)
    (cap : Option Rat) :
    (startSession db id name cap).length = db.length + 1 ∧
    (startSession db id name cap).take db.length = db ∧
    (startSession db id name cap).getLast? = some (newSessionRow id name cap) ∧
    (newSessionRow id name cap).status = SessionStatus.running := by
  refine ⟨?_, ?_, ?_, rfl⟩
  · simp [startSession]
  · simp [startSession]
  · simp [startSession]

/-- Helper: an end-session request does not change a row's id. -/
theorem applySessionOp_id (r : SessionRow) (op : SessionOp) :
    (applySessionOp r op).id = r.id := by
  cases op with
  | loopTick pnl err => rfl
  | endSession req ns t =>
    rw [applySessionOp_endSession]
    split
    · rfl
    · rfl

/-- Helper: ending a row twice equals ending it once, for a first request
carrying a terminal status. -/
theorem applyEnd_idempotent (r : SessionRow) (req req2 : SessionStatus)
    (ns ns2 : Option String) (t t2 : Nat) (hterm : req.isTerminal = true) :
    applySessionOp (applySessionOp r (.endSession req ns t)) (.endSession req2 ns2 t2)
      = applySessionOp r (.endSession req ns t) := by
  by_cases hrun : r.status = SessionStatus.running
  · have hc : r.status = SessionStatus.running ∧ req.isTerminal = true := ⟨hrun, hterm⟩
    have h1 : applySessionOp r (.endSession req ns t)
        = { r with status := req, endedAt := some t, notes := ns } := by
      rw [applySessionOp_endSession, if_pos hc]
    rw [h1, applySessionOp_endSession]
    rw [if_neg]
    intro hc2
    have hreq : req = SessionStatus.running := hc2.1
    rw [hreq] at hterm
    simp [SessionStatus.isTerminal] at hterm
  · have h1 : applySessionOp r (.endSession req ns t) = r := by
      rw [applySessionOp_endSession, if_neg (by intro hc; exact hrun hc.1)]
    rw [h1, applySessionOp_endSession, if_neg (by intro hc; exact hrun hc.1)]

/-- Claim C3: ending a running session sets its status to the requested
terminal value (other rows untouched), and re-ending an already-ended
session is idempotent — a second end-session call, with any request,
leaves the table unchanged. -/
theorem endSession_spec (db : List SessionRow) (sid : Nat) (req req2 : SessionStatus)
    (ns ns2 : Option String) (t t2 : Nat) (hterm : req.isTerminal = true) :
    (∀ (i : Nat) (r : SessionRow), db[i]? = some r →
      (r.id = sid → r.status = SessionStatus.running →
        (endSessionDb db sid req ns t)[i]? =
          some { r with status := req, endedAt := some t, notes := ns }) ∧
      (r.id ≠ sid → (endSessionDb db sid req ns t)[i]? = some r)) ∧
    endSessionDb (endSessionDb db sid req ns t) sid req2 ns2 t2 =
      endSessionDb db sid req ns t := by
  constructor
  · intro i r hr
    have hmap : (endSessionDb db sid req ns t)[i]? =
        some (if r.id = sid then applySessionOp r (.endSession req ns t) else r) := by
      unfold endSessionDb
      rw [List.getElem?_map, hr]
      rfl
    constructor
    · intro hid hrun
      have hc : r.status = SessionStatus.running ∧ req.isTerminal = true := ⟨hrun, hterm⟩
      rw [hmap, if_pos hid]
      rw [applySessionOp_endSession, if_pos hc]
    · intro hid
      rw [hmap, if_neg hid]
  · unfold endSessionDb
    rw [List.map_map]
    apply List.map_congr_left
    intro r _
    simp only [Function.comp]
    by_cases hid : r.id = sid
    · rw [if_pos hid, if_pos (by rw [applySessionOp_id]; exact hid)]
      exact applyEnd_idempotent r req req2 ns ns2 t t2 hterm
    · rw [if_neg hid, if_neg hid]

/-- Sample running session row. -/
def sampleRunningRow : SessionRow :=
  { id := 1, sessionName := some "demo", status := .running,
    initialCapital := some 10000, totalPnl := none, decisionCount := 0,
    lastError := none, endedAt := none, notes := none }

/-- Witness for claim C3: ending the sample one-row table marks the row
`completed`, and ending it again changes nothing. -/
theorem endSession_spec_witness :
    (endSessionDb [sampleRunningRow] 1 .completed none 50)[0]? =
      some { sampleRunningRow with
              status := .completed, endedAt := some 50, notes := none } ∧
    endSessionDb (endSessionDb [sampleRunningRow] 1 .completed none 50)
        1 .stopped none 60 =
      endSessionDb [sampleRunningRow] 1 .completed none 50 :=
  ⟨(((endSession_spec [sampleRunningRow] 1 .completed .stopped none none 50 60
        (by decide)).1 0 sampleRunningRow (by decide)).1 (by decide) (by decide)),
   (endSession_spec [sampleRunningRow] 1 .completed .stopped none none 50 60
        (by decide)).2⟩

/-- Claim C4: a start request for a session id whose decision loop is
already running leaves the registry unchanged (no second loop is created),
and along any sequence of start/stop requests the registry never holds a
session id more than once. -/
theorem decisionLoop_no_double_start (reg : List Nat) (sid : Nat) (ops : List AgentOp)
    (hcount : reg.count sid ≤ 1) :
    (sid ∈ reg → startLoop reg sid = reg) ∧
    (applyAgentOps reg ops).count sid ≤ 1 := by
  constructor
  · intro hmem
    unfold startLoop
    rw [if_pos hmem]
  · induction ops generalizing reg with
    | nil => exact hcount
    | cons op rest ih =>
      cases op with
      | start sid2 =>
        refine ih (startLoop reg sid2) ?_
        unfold startLoop
        by_cases hmem : sid2 ∈ reg
        · rw [if_pos hmem]; exact hcount
        · rw [if_neg hmem]
          by_cases heq : sid2 = sid
          · subst heq
            have h0 : reg.count sid2 = 0 := List.count_eq_zero.mpr hmem
            simp [List.count_cons, h0]
          · simp [List.count_cons, heq]
            exact hcount
      | stop sid2 =>
        refine ih (stopLoop reg sid2) ?_
        calc (stopLoop reg sid2).count sid
            ≤ reg.count sid := (reg.erase_sublist sid2).count_le sid
          _ ≤ 1 := hcount

/-- Witness for claim C4: starting session 7's loop twice from the empty
registry registers it once, and the final registry count for id 7 is at
most one. -/
theorem decisionLoop_no_double_start_witness :
    (7 ∈ startLoop [] 7 → startLoop (startLoop [] 7) 7 = startLoop [] 7) ∧
    (applyAgentOps (startLoop [] 7) [AgentOp.start 7, AgentOp.start 7]).count 7 ≤ 1 :=
  decisionLoop_no_double_start (startLoop [] 7) 7 [AgentOp.start 7, AgentOp.start 7]
    (by decide)

/-- Claim C5 counterexample: a failed request whose JSON body carries the
(present) detail string `""` is not displayed as that detail string —
JavaScript truthiness makes the interceptor fall through to the transport
error's own message, so the displayed text differs from the detail
field. -/
theorem errorDetail_display_counterexample :
    extractErrorMessage (some "") none (some "Request failed with status code 500")
      = "Request failed with status code 500" ∧
    extractErrorMessage (some "") none (some "Request failed with status code 500")
      ≠ "" := by
  constructor
  · rfl
  · decide

/-- Claim C5 (amended): the backend surfaces a failed request as a JSON
body `{detail: string}` with a non-2xx status, and whenever the detail
string is non-empty the interceptor adopts it verbatim and the session
store's error banner displays exactly that string; the generic fallback
message appears only when detail, the body's message field and the
transport error's message are all absent. -/
theorem errorDetail_display_spec (d : String) (msg orig : Option String)
    (s : SessionUiState) (status : Nat) (hd : d ≠ "") :
    extractErrorMessage (some d) msg orig = d ∧
    displayedSessionError
      (sessionFailure s (extractErrorMessage (some d) msg orig)) = some d ∧
    extractErrorMessage none none none = genericNetworkError ∧
    is2xx (surfaceError status d).status = false ∧
    (surfaceError status d).detail = d := by
  have h1 : extractErrorMessage (some d) msg orig = d := by
    simp [extractErrorMessage, jsTruthy, hd]
  refine ⟨h1, ?_, rfl, ?_, rfl⟩
  · rw [h1]
    simp [displayedSessionError, sessionFailure, jsTruthy, hd]
  · have hge : 400 ≤ (surfaceError status d).status := by
      simp [surfaceError]
    simp only [is2xx]
    rw [decide_eq_false_iff_not]
    intro hcontra
    omega

/-- Witness for claim C5 (amended): a 404 with detail `"会话不存在"` is
displayed verbatim by the session store banner. -/
theorem errorDetail_display_spec_witness :
    extractErrorMessage (some "会话不存在") none none = "会话不存在" ∧
    displayedSessionError
      (sessionFailure { activeSessionId := none, isLoading := true, error := none }
        (extractErrorMessage (some "会话不存在") none none)) = some "会话不存在" ∧
    is2xx (surfaceError 404 "会话不存在").status = false :=
  ⟨(errorDetail_display_spec "会话不存在" none none
      { activeSessionId := none, isLoading := true, error := none } 404 (by decide)).1,
   (errorDetail_display_spec "会话不存在" none none
      { activeSessionId := none, isLoading := true, error := none } 404 (by decide)).2.1,
   (errorDetail_display_spec "会话不存在" none none
      { activeSessionId := none, isLoading := true, error := none } 404 (by decide)).2.2.2.1⟩

/-- Helper: string concatenation is associative. -/
theorem strAppendAssoc (a b c : String) : a ++ b ++ c = a ++ (b ++ c) := by
  apply String.ext
  simp only [String.data_append]
  exact List.append_assoc _ _ _

/-- Helper: a path built as `template ++ x` lies under a section when the
template itself is `/api/v1/<sect>/<mid>`. -/
theorem underApiV1_of_template (p sect mid x : String) (hsect : sect ∈ apiSections)
    (hp : p = "/api/v1/" ++ sect ++ ("/" ++ mid)) : underApiV1 (p ++ x) := by
  refine ⟨sect, mid ++ x, hsect, ?_⟩
  rw [hp, strAppendAssoc ("/api/v1/" ++ sect) ("/" ++ mid) x, strAppendAssoc "/" mid x]

/-- Claim C6 counterexample: the frontend invokes the market ticker route,
and per its declared response type `TickerData` (whose `last` field the
trading page reads directly off the body) the successful response body has
neither a `success` nor a `data` field; the kline response likewise has no
`success` field. -/
theorem apiEnvelope_counterexample :
    "/api/v1/market/ticker" ∈ invokedRoutes 1 ∧
    "success" ∉ tickerRespFields ∧
    "data" ∉ tickerRespFields ∧
    "success" ∉ klineRespFields := by
  refine ⟨?_, by decide, by decide, by decide⟩
  unfold invokedRoutes
  exact List.mem_cons_of_mem _ (List.mem_cons_self _ _)

/-- Claim C6 (amended): every REST route the frontend client invokes lies
under `/api/v1/{market,session,agent,account,config}`; the
session/config endpoints whose response shape the frontend declares or
destructures use the `{success, data}` envelope, while the market
endpoints return the payload object directly (no `success` field). -/
theorem apiRoutes_spec (sid : Nat) :
    (∀ r ∈ invokedRoutes sid, underApiV1 r) ∧
    ("success" ∈ configTradingPairsRespFields ∧ "data" ∈ configTradingPairsRespFields) ∧
    ("success" ∈ aiDecisionsRespFields ∧ "data" ∈ aiDecisionsRespFields) ∧
    "success" ∉ tickerRespFields ∧
    "success" ∉ klineRespFields := by
  refine ⟨?_, by decide, by decide, by decide, by decide⟩
  intro r hr
  simp only [invokedRoutes, List.mem_cons, List.not_mem_nil, or_false] at hr
  rcases hr with rfl|rfl|rfl|rfl|rfl|rfl|rfl|rfl|rfl|rfl|rfl|rfl|rfl|rfl|rfl|rfl|rfl|rfl|rfl|rfl|rfl
  · exact ⟨"market", "klines", by decide, by decide⟩
  · exact ⟨"market", "ticker", by decide, by decide⟩
  · exact ⟨"market", "symbols", by decide, by decide⟩
  · exact ⟨"market", "funding-rate", by decide, by decide⟩
  · exact ⟨"market", "open-interest", by decide, by decide⟩
  · exact ⟨"market", "indicators", by decide, by decide⟩
  · rw [strAppendAssoc]
    exact underApiV1_of_template "/api/v1/agent/sessions/" "agent" "sessions/"
      (toString sid ++ "/run-once") (by decide) (by decide)
  · rw [strAppendAssoc]
    exact underApiV1_of_template "/api/v1/agent/sessions/" "agent" "sessions/"
      (toString sid ++ "/start-background") (by decide) (by decide)
  · rw [strAppendAssoc]
    exact underApiV1_of_template "/api/v1/agent/sessions/" "agent" "sessions/"
      (toString sid ++ "/stop-background") (by decide) (by decide)
  · rw [strAppendAssoc]
    exact underApiV1_of_template "/api/v1/agent/sessions/" "agent" "sessions/"
      (toString sid ++ "/background-status") (by decide) (by decide)
  · exact ⟨"agent", "background-agents/list", by decide, by decide⟩
  · exact ⟨"agent", "test", by decide, by decide⟩
  · exact underApiV1_of_template "/api/v1/session/" "session" ""
      (toString sid) (by decide) (by decide)
  · exact ⟨"session", "active", by decide, by decide⟩
  · exact ⟨"session", "list", by decide, by decide⟩
  · exact ⟨"session", "start", by decide, by decide⟩
  · exact ⟨"session", "end", by decide, by decide⟩
  · rw [strAppendAssoc]
    exact underApiV1_of_template "/api/v1/session/" "session" ""
      (toString sid ++ "/ai-decisions") (by decide) (by decide)
  · rw [strAppendAssoc]
    exact underApiV1_of_template "/api/v1/session/" "session" ""
      (toString sid ++ "/asset-timeline") (by decide) (by decide)
  · exact ⟨"account", "summary", by decide, by decide⟩
  · exact ⟨"config", "trading-pairs", by decide, by decide⟩

/-- Witness for claim C6 (amended): at session id 7 the background-status
route lies under the agent section. -/
theorem apiRoutes_spec_witness :
    underApiV1 ("/api/v1/agent/sessions/" ++ toString 7 ++ "/background-status") :=
  (apiRoutes_spec 7).1 _ (by
    unfold invokedRoutes
    exact List.mem_cons_of_mem _ (List.mem_cons_of_mem _ (List.mem_cons_of_mem _
      (List.mem_cons_of_mem _ (List.mem_cons_of_mem _ (List.mem_cons_of_mem _
        (List.mem_cons_of_mem _ (List.mem_cons_of_mem _ (List.mem_cons_of_mem _
          (List.mem_cons_self _ _))))))))))

/-- Claim C7: every trade row admitted by the schema's constraints has side
`'long'` or `'short'` and a present (NOT NULL) pnl, and a row written at
position close always satisfies those constraints with its realised pnl
recorded. -/
theorem trade_side_pnl_spec (t : TradeRow) (ht : tradeRowSatisfiesSchema t = true) :
    (t.side = some "long" ∨ t.side = some "short") ∧
    t.pnl.isSome = true ∧
    (∀ (sid : Nat) (symbol : String) (side : TradeSide) (qty entry exit fees : Rat),
      tradeRowSatisfiesSchema (createTradeAtClose sid symbol side qty entry exit fees)
        = true ∧
      (createTradeAtClose sid symbol side qty entry exit fees).pnl.isSome = true) := by
  refine ⟨?_, ?_, ?_⟩
  · cases hside : t.side with
    | none =>
      rw [tradeRowSatisfiesSchema, hside] at ht
      simp at ht
    | some s =>
      rw [tradeRowSatisfiesSchema, hside] at ht
      simp only [Bool.and_eq_true] at ht
      have hs := ht.1.2
      simp [tradeSideCheck] at hs
      rcases hs with h | h
      · left; exact congrArg some h
      · right; exact congrArg some h
  · rw [tradeRowSatisfiesSchema] at ht
    simp only [Bool.and_eq_true] at ht
    exact ht.1.1.2
  · intro sid symbol side qty entry exit fees
    cases side <;>
      simp [tradeRowSatisfiesSchema, createTradeAtClose, tradeSideCheck,
        orderTypeCheck, TradeSide.str]

/-- Witness for claim C7: the concrete trade row written when closing a
sample long position satisfies the schema, carries side `'long'` and has a
present pnl. -/
theorem trade_side_pnl_spec_witness :
    (createTradeAtClose 1 "BTC/USDT" .long 2 10 12 1).side = some "long" ∧
    (createTradeAtClose 1 "BTC/USDT" .long 2 10 12 1).pnl.isSome = true :=
  ⟨Or.resolve_right
    (trade_side_pnl_spec (createTradeAtClose 1 "BTC/USDT" .long 2 10 12 1)
      (by decide)).1
    (by decide),
   (trade_side_pnl_spec (createTradeAtClose 1 "BTC/USDT" .long 2 10 12 1)
      (by decide)).2.1⟩

end CryptoGo
